import Mathlib

/-
Verification of `pde.py` (module `ProcessDivisionier`): a shallow embedding of the
argument registry and the dispatcher, with theorems checking the natural-language
specification against the code.

Modelling choices:
* Python values relevant to the module are embedded as `PyVal`; the tuple check
  `isinstance(args, tuple)` becomes `PyVal.isTuple`.
* Python exceptions are embedded as `PyErr`.  A mutating method that can raise is
  embedded as a function returning `Option PyErr × State`: the first component is
  the exception propagated to the caller (`none` on normal return), the second is
  the object state after the call (Python mutations performed before the raise
  remain visible, exactly as in the source).
* `run` executes the worker one registered tuple at a time.  The nondeterministic
  completion order of the process pool is an explicit parameter `order`, a
  permutation of the submission indices; the `workers` bound only limits
  concurrency and has no effect on the values produced, so it is carried but unused.
* The completion callback `update` in the source raises the worker exception from
  inside `Future.add_done_callback`; `concurrent.futures` catches and logs
  exceptions escaping a done-callback, so the raise never reaches the caller of
  `run`: the callback stops (the result of that future is not appended), the
  remaining callbacks still run, and `run` returns the list of successful results.
  `runPool` embeds exactly that behaviour.
-/

/-- Embedded Python values: integers, strings, `None`, and tuples. -/
inductive PyVal where
  | int : Int → PyVal
  | str : String → PyVal
  | pynone : PyVal
  | tup : List PyVal → PyVal

/-- Embedded Python exceptions raised by the module or by worker functions. -/
inductive PyErr where
  | typeError : String → PyErr
  | valueError : String → PyErr
deriving DecidableEq

/-- `isinstance(v, tuple)`. -/
def PyVal.isTuple : PyVal → Bool
  | .tup _ => true
  | _ => false

/-- A worker function: takes the unpacked positional arguments, returns a value
or raises. -/
def Worker : Type := List PyVal → Except PyErr PyVal

/-- The Python call `f(*args)`: unpacks a tuple into positional arguments;
unpacking a non-tuple raises `TypeError`. -/
def callStar (f : Worker) : PyVal → Except PyErr PyVal
  | .tup xs => f xs
  | _ => .error (.typeError "argument after * must be an iterable")

/-- State of a `ProcessDivisionier` object: the worker function `__f`, the
registered argument list `__all_args` and the cached count `__num_of_process`. -/
structure ProcessDivisionier where
  f : Worker
  all_args : List PyVal
  num_of_process : Int

/-- `ProcessDivisionier.__init__(func)`. -/
def ProcessDivisionier.init (func : Worker) : ProcessDivisionier :=
  { f := func, all_args := [], num_of_process := 1 }

/-- `show_args`: returns the registered argument list. -/
def ProcessDivisionier.show_args (p : ProcessDivisionier) : List PyVal :=
  p.all_args

/-- `add_args(*args)`: appends the tuple of the given values and refreshes the
cached count. -/
def ProcessDivisionier.add_args (p : ProcessDivisionier) (args : List PyVal) :
    ProcessDivisionier :=
  let na := p.all_args ++ [PyVal.tup args]
  { p with all_args := na, num_of_process := (na.length : Int) }

/-- The message of the `TypeError` raised by `set_allargs`. -/
def setAllargsErr : PyErr :=
  .typeError "与える引数はタプルでまとめてください"

/-- `set_allargs(all_args, mode)`.  Mirrors the source order of effects: in
mode `"w"` the list is cleared first, then every element is checked to be a
tuple (raising `TypeError` otherwise, with the cleared list left in place),
then the elements are appended and the cached count refreshed. -/
def ProcessDivisionier.set_allargs (p : ProcessDivisionier)
    (all_args : List PyVal) (mode : String) :
    Option PyErr × ProcessDivisionier :=
  let p := if mode = "w" then { p with all_args := [] } else p
  if all_args.any (fun args => ! args.isTuple) then
    (some setAllargsErr, p)
  else
    let na := p.all_args ++ all_args
    (none, { p with all_args := na, num_of_process := (na.length : Int) })

/-- `set_processes(num_of_process)`: sets the cached count and replaces the
argument list with that many empty tuples (`[tuple()] * n`; a negative `n`
yields the empty list, as in Python). -/
def ProcessDivisionier.set_processes (p : ProcessDivisionier)
    (num_of_process : Int) : ProcessDivisionier :=
  { p with num_of_process := num_of_process,
           all_args := List.replicate num_of_process.toNat (PyVal.tup []) }

/-- The value carried out of `run`: the exception propagated to the caller (if
any), the returned result list (when the call returns), the number of
progress-bar advance events, and the object state after the call. -/
structure RunOutput where
  raised : Option PyErr
  results : Option (List PyVal)
  progressEvents : Nat
  state : ProcessDivisionier

/-- Extracts the value of a successful worker outcome. -/
def okValue : Except PyErr PyVal → Option PyVal
  | .ok v => some v
  | .error _ => none

/-- The pool phase of `run`: submits one future per registered tuple in registry
order, then handles completions in the order given by `order` (a permutation of
the submission indices).  Each completion callback advances the progress bar by
one; if the future holds an exception the callback re-raises it, but that raise
is caught and logged by the executor machinery, so the result is merely not
appended and `run` still returns the collected results.  The pool is torn down
and the state is unchanged. -/
def runPool (p : ProcessDivisionier) (order : List Nat) : RunOutput :=
  let fs := p.all_args.map (fun args => callStar p.f args)
  let completed := order.filterMap (fun i => fs[i]?)
  let results := completed.filterMap okValue
  { raised := none, results := some results,
    progressEvents := completed.length, state := p }

/-- `run(workers, all_args)`: if `all_args` is not `None` it is first installed
via `set_allargs(all_args)` (default mode `"w"`, i.e. overwrite); an exception
from that call propagates before any future is submitted.  Then the pool phase
executes.  `workers` only bounds concurrency and does not affect the produced
values, so it is unused by the model. -/
def ProcessDivisionier.run (p : ProcessDivisionier) (workers : Nat)
    (all_args : Option (List PyVal)) (order : List Nat) : RunOutput :=
  match all_args with
  | some aa =>
    match p.set_allargs aa "w" with
    | (some e, p1) =>
      { raised := some e, results := none, progressEvents := 0, state := p1 }
    | (none, p1) => runPool p1 order
  | none => runPool p order

/-- The always-succeeding worker used as a concrete instance. -/
def constWorker : Worker := fun _ => Except.ok PyVal.pynone

/-- The worker `square(x) = x * x` of the concrete scenario. -/
def square : Worker := fun args =>
  match args with
  | [PyVal.int x] => Except.ok (PyVal.int (x * x))
  | _ => Except.error (PyErr.typeError "square expects one int")

/-- The worker of the failure scenario: raises `ValueError` when `x == 3`,
otherwise returns `x * x`. -/
def sqOrRaise3 : Worker := fun args =>
  match args with
  | [PyVal.int x] =>
      if x = 3 then Except.error (PyErr.valueError "x is 3")
      else Except.ok (PyVal.int (x * x))
  | _ => Except.error (PyErr.typeError "expects one int")

/-- The registry `[(1,), (2,), (3,), (4,)]` with the worker `square`. -/
def regFour : ProcessDivisionier :=
  { f := square,
    all_args := [PyVal.tup [PyVal.int 1], PyVal.tup [PyVal.int 2],
                 PyVal.tup [PyVal.int 3], PyVal.tup [PyVal.int 4]],
    num_of_process := 4 }

/-- The registry `[(1,), (2,), (3,), (4,)]` with the worker `sqOrRaise3`. -/
def regFail : ProcessDivisionier :=
  { regFour with f := sqOrRaise3 }

/-- A one-entry registry `[(1,)]`. -/
def pOne : ProcessDivisionier :=
  { f := square, all_args := [PyVal.tup [PyVal.int 1]], num_of_process := 1 }

/-- A two-entry registry with the always-succeeding worker. -/
def pTwo : ProcessDivisionier :=
  { f := constWorker,
    all_args := [PyVal.tup [PyVal.int 1], PyVal.tup []],
    num_of_process := 2 }

/-- `filterMap` of the index lookup over `range` reassembles the list. -/
theorem filterMap_getElem_range {α : Type} (l : List α) :
    (List.range l.length).filterMap (fun i => l[i]?) = l := by
  induction l with
  | nil => rfl
  | cons a t ih =>
    have hcomp : ((fun i => (a :: t)[i]?) ∘ Nat.succ) = fun i => t[i]? := by
      funext i
      simp
    calc (List.range (a :: t).length).filterMap (fun i => (a :: t)[i]?)
        = (0 :: (List.range t.length).map Nat.succ).filterMap
            (fun i => (a :: t)[i]?) := by
          rw [List.length_cons, List.range_succ_eq_map]
      _ = a :: ((List.range t.length).map Nat.succ).filterMap
            (fun i => (a :: t)[i]?) := by
          rw [List.filterMap_cons, List.getElem?_cons_zero]
      _ = a :: (List.range t.length).filterMap
            ((fun i => (a :: t)[i]?) ∘ Nat.succ) := by
          rw [List.filterMap_map]
      _ = a :: (List.range t.length).filterMap (fun i => t[i]?) := by rw [hcomp]
      _ = a :: t := by rw [ih]

/-- Handling completions along a permutation of the submission indices visits
exactly the submitted futures, in permuted order. -/
theorem perm_completed {α : Type} {l : List α} {order : List Nat}
    (h : order.Perm (List.range l.length)) :
    (order.filterMap (fun i => l[i]?)).Perm l := by
  have h2 := h.filterMap (fun i => l[i]?)
  rwa [filterMap_getElem_range] at h2

/-- `filterMap` keeps the length when the function succeeds on every element. -/
theorem length_filterMap_of_isSome {α β : Type} {f : α → Option β} {l : List α}
    (h : ∀ x ∈ l, (f x).isSome = true) : (l.filterMap f).length = l.length := by
  induction l with
  | nil => rfl
  | cons a t ih =>
    obtain ⟨b, hb⟩ := Option.isSome_iff_exists.mp (h a (List.mem_cons_self a t))
    rw [List.filterMap_cons, hb, List.length_cons, List.length_cons,
        ih (fun x hx => h x (List.mem_cons_of_mem a hx))]

/-- Claim C1: for a registry of n >= 2 units in which one unit raises, `run()`
is claimed to propagate that failure and return no result list.  The code does
not: the re-raise happens inside the done-callback, where the executor catches
and logs it, so at registry `[(1,), (2,), (3,), (4,)]` with a worker raising at
`x == 3`, `run` raises nothing and returns the partial list `[1, 4, 16]` (with
all 4 progress events). -/
theorem run_swallows_worker_failure :
    (regFail.run 2 none [0, 1, 2, 3]).raised = none ∧
    (regFail.run 2 none [0, 1, 2, 3]).results =
      some [PyVal.int 1, PyVal.int 4, PyVal.int 16] ∧
    (regFail.run 2 none [0, 1, 2, 3]).progressEvents = 4 :=
  ⟨rfl, rfl, rfl⟩

/-- Claim C2, counterexample: at the registry `[(1,)]`, `set_allargs([5], "w")`
raises the TypeError but does not leave the registry as it was: the list was
already cleared before validation. -/
theorem set_allargs_w_counterexample :
    (pOne.set_allargs [PyVal.int 5] "w").1 = some setAllargsErr ∧
    (pOne.set_allargs [PyVal.int 5] "w").2.show_args = [] ∧
    pOne.show_args = [PyVal.tup [PyVal.int 1]] ∧
    (pOne.set_allargs [PyVal.int 5] "w").2.show_args ≠ pOne.show_args := by
  refine ⟨rfl, rfl, rfl, ?_⟩
  intro h
  exact List.noConfusion h

/-- Claim C2, amended: `set_allargs` with an input containing a non-tuple
element raises the TypeError in both modes and never updates the cached unit
count; in mode `"a"` the registry is left exactly unchanged, while in mode
`"w"` the registry has already been cleared before the validation, so it is
left empty. -/
theorem set_allargs_invalid_input (p : ProcessDivisionier) (ts : List PyVal)
    (h : ∃ v ∈ ts, v.isTuple = false) :
    p.set_allargs ts "a" = (some setAllargsErr, p) ∧
    p.set_allargs ts "w" = (some setAllargsErr, { p with all_args := [] }) := by
  have hany : ts.any (fun args => ! args.isTuple) = true := by
    obtain ⟨v, hv, hvt⟩ := h
    exact List.any_eq_true.mpr ⟨v, hv, by rw [hvt]; rfl⟩
  constructor <;> simp [ProcessDivisionier.set_allargs, hany]

/-- Witness for the amended claim C2 at the registry `[(1,)]` and the input
`[5]`. -/
theorem set_allargs_invalid_input_witness :
    pOne.set_allargs [PyVal.int 5] "a" = (some setAllargsErr, pOne) ∧
    pOne.set_allargs [PyVal.int 5] "w" =
      (some setAllargsErr, { pOne with all_args := [] }) :=
  set_allargs_invalid_input pOne [PyVal.int 5]
    ⟨PyVal.int 5, List.mem_singleton.mpr rfl, rfl⟩

/-- Claim C5: `set_processes(n)` with `n >= 0` discards the registry, replaces
it with exactly `n` empty tuples and sets the cached unit count to `n`. -/
theorem set_processes_replaces (p : ProcessDivisionier) (n : Int) (h : 0 ≤ n) :
    (p.set_processes n).show_args = List.replicate n.toNat (PyVal.tup []) ∧
    ((p.set_processes n).show_args.length : Int) = n ∧
    (p.set_processes n).num_of_process = n := by
  refine ⟨rfl, ?_, rfl⟩
  show ((List.replicate n.toNat (PyVal.tup [])).length : Int) = n
  rw [List.length_replicate, Int.toNat_of_nonneg h]

/-- Witness for claim C5 at `n = 5` starting from the registry `[(1,)]`. -/
theorem set_processes_replaces_witness :
    (pOne.set_processes 5).show_args = List.replicate 5 (PyVal.tup []) ∧
    ((pOne.set_processes 5).show_args.length : Int) = 5 ∧
    (pOne.set_processes 5).num_of_process = 5 := by
  have h := set_processes_replaces pOne 5 (by decide)
  simpa using h

/-- Claim C7: `run` called with `all_args = None` leaves the registry contents
and the cached unit count exactly as they were: the dispatcher reads the
registry but never mutates it. -/
theorem run_none_preserves_registry (p : ProcessDivisionier) (workers : Nat)
    (order : List Nat) :
    (p.run workers none order).state.show_args = p.show_args ∧
    (p.run workers none order).state.num_of_process = p.num_of_process :=
  ⟨rfl, rfl⟩

/-- Claim C10: in append mode the element validation happens before any
extension of the list, so `set_allargs(ts, "a")` with a non-tuple element
raises the TypeError and leaves the whole state (registry and cached unit
count) exactly unchanged. -/
theorem set_allargs_append_invalid_unchanged (p : ProcessDivisionier)
    (ts : List PyVal) (h : ∃ v ∈ ts, v.isTuple = false) :
    (p.set_allargs ts "a").1 = some setAllargsErr ∧
    (p.set_allargs ts "a").2 = p := by
  have hany : ts.any (fun args => ! args.isTuple) = true := by
    obtain ⟨v, hv, hvt⟩ := h
    exact List.any_eq_true.mpr ⟨v, hv, by rw [hvt]; rfl⟩
  constructor <;> simp [ProcessDivisionier.set_allargs, hany]

/-- Witness for claim C10 at the registry `[(1,)]` and the input `[(2,), 5]`. -/
theorem set_allargs_append_invalid_unchanged_witness :
    (pOne.set_allargs [PyVal.tup [PyVal.int 2], PyVal.int 5] "a").1 =
      some setAllargsErr ∧
    (pOne.set_allargs [PyVal.tup [PyVal.int 2], PyVal.int 5] "a").2 = pOne :=
  set_allargs_append_invalid_unchanged pOne [PyVal.tup [PyVal.int 2], PyVal.int 5]
    ⟨PyVal.int 5, by simp, rfl⟩

/-- The validation guard of `set_allargs` passes when every element is a
tuple. -/
theorem any_not_isTuple_eq_false {ts : List PyVal}
    (h : ∀ v ∈ ts, v.isTuple = true) :
    ts.any (fun args => ! args.isTuple) = false := by
  rw [List.any_eq_false]
  intro x hx
  rw [h x hx]
  simp

/-- Claim C4: for any prior registry state and a sequence of tuples,
`set_allargs(ts, "w")` followed by `show_args()` yields exactly `ts`, and
`set_allargs(ts, "a")` followed by `show_args()` yields the prior contents
followed by `ts`; neither call raises. -/
theorem set_allargs_valid_modes (p : ProcessDivisionier) (ts : List PyVal)
    (h : ∀ v ∈ ts, v.isTuple = true) :
    (p.set_allargs ts "w").1 = none ∧
    (p.set_allargs ts "w").2.show_args = ts ∧
    (p.set_allargs ts "a").1 = none ∧
    (p.set_allargs ts "a").2.show_args = p.show_args ++ ts := by
  have hany := any_not_isTuple_eq_false h
  refine ⟨?_, ?_, ?_, ?_⟩ <;>
    simp [ProcessDivisionier.set_allargs, hany, ProcessDivisionier.show_args]

/-- Witness for claim C4 at the registry `[(1,)]` and the input `[(7,)]`. -/
theorem set_allargs_valid_modes_witness :
    (pOne.set_allargs [PyVal.tup [PyVal.int 7]] "w").1 = none ∧
    (pOne.set_allargs [PyVal.tup [PyVal.int 7]] "w").2.show_args =
      [PyVal.tup [PyVal.int 7]] ∧
    (pOne.set_allargs [PyVal.tup [PyVal.int 7]] "a").1 = none ∧
    (pOne.set_allargs [PyVal.tup [PyVal.int 7]] "a").2.show_args =
      pOne.show_args ++ [PyVal.tup [PyVal.int 7]] :=
  set_allargs_valid_modes pOne [PyVal.tup [PyVal.int 7]]
    (fun v hv => by rw [List.mem_singleton.mp hv]; rfl)

/-- Claim C9: the cached unit count equals the length of the argument list
after `add_args`, after a successful `set_allargs` (in any mode), and after
`set_processes(n)` with `n >= 0`. -/
theorem cached_count_matches_length (p : ProcessDivisionier)
    (args ts : List PyVal) (mode : String) (n : Int) (hn : 0 ≤ n)
    (hok : (p.set_allargs ts mode).1 = none) :
    (p.add_args args).num_of_process =
      ((p.add_args args).all_args.length : Int) ∧
    (p.set_allargs ts mode).2.num_of_process =
      ((p.set_allargs ts mode).2.all_args.length : Int) ∧
    (p.set_processes n).num_of_process =
      ((p.set_processes n).all_args.length : Int) := by
  refine ⟨rfl, ?_, ?_⟩
  · by_cases hc : ts.any (fun args => ! args.isTuple) = true
    · rw [ProcessDivisionier.set_allargs] at hok
      simp [hc] at hok
    · rw [Bool.not_eq_true] at hc
      simp [ProcessDivisionier.set_allargs, hc]
  · show n = ((List.replicate n.toNat (PyVal.tup [])).length : Int)
    rw [List.length_replicate, Int.toNat_of_nonneg hn]

/-- Witness for claim C9 at the registry `[(1,)]`, appended args `(2,)`, bulk
input `[()]` in append mode, and `n = 2`. -/
theorem cached_count_matches_length_witness :
    (pOne.add_args [PyVal.int 2]).num_of_process =
      ((pOne.add_args [PyVal.int 2]).all_args.length : Int) ∧
    (pOne.set_allargs [PyVal.tup []] "a").2.num_of_process =
      ((pOne.set_allargs [PyVal.tup []] "a").2.all_args.length : Int) ∧
    (pOne.set_processes 2).num_of_process =
      ((pOne.set_processes 2).all_args.length : Int) :=
  cached_count_matches_length pOne [PyVal.int 2] [PyVal.tup []] "a" 2
    (by decide) rfl

/-- Claim C6: `run` with a supplied `all_args` override of valid tuples first
replaces the registry contents with exactly the override (overwrite mode) and
only then runs the pool phase: the executed batch is the override and the
post-state registry equals the override. -/
theorem run_override_overwrites_first (p : ProcessDivisionier) (workers : Nat)
    (ts : List PyVal) (order : List Nat) (h : ∀ v ∈ ts, v.isTuple = true) :
    p.run workers (some ts) order =
      runPool { p with all_args := ts, num_of_process := (ts.length : Int) }
        order ∧
    (p.run workers (some ts) order).state.show_args = ts := by
  have hany := any_not_isTuple_eq_false h
  have hset : p.set_allargs ts "w" =
      (none, { p with all_args := ts, num_of_process := (ts.length : Int) }) := by
    simp [ProcessDivisionier.set_allargs, hany]
  have hrun : p.run workers (some ts) order =
      runPool { p with all_args := ts, num_of_process := (ts.length : Int) }
        order := by
    simp only [ProcessDivisionier.run]
    rw [hset]
  exact ⟨hrun, by rw [hrun]; rfl⟩

/-- Witness for claim C6 at the registry `[(1,)]` with override `[(9,)]`. -/
theorem run_override_overwrites_first_witness :
    pOne.run 2 (some [PyVal.tup [PyVal.int 9]]) [0] =
      runPool
        { pOne with all_args := [PyVal.tup [PyVal.int 9]],
                    num_of_process := (([PyVal.tup [PyVal.int 9]] : List PyVal).length : Int) }
        [0] ∧
    (pOne.run 2 (some [PyVal.tup [PyVal.int 9]]) [0]).state.show_args =
      [PyVal.tup [PyVal.int 9]] :=
  run_override_overwrites_first pOne 2 [PyVal.tup [PyVal.int 9]] [0]
    (fun v hv => by rw [List.mem_singleton.mp hv]; rfl)

/-- Claim C3: for every registry of length n (including n = 0) and a worker
that always succeeds, `run()` returns a list of exactly n results and the
progress bar receives exactly n advance-by-1 events, whatever the completion
order of the pool. -/
theorem run_success_counts (p : ProcessDivisionier) (workers : Nat)
    (order : List Nat)
    (hperm : order.Perm (List.range p.all_args.length))
    (htup : ∀ v ∈ p.all_args, v.isTuple = true)
    (hok : ∀ args, ∃ v, p.f args = Except.ok v) :
    ∃ l, (p.run workers none order).results = some l ∧
      l.length = p.all_args.length ∧
      (p.run workers none order).progressEvents = p.all_args.length := by
  have hlen : (p.all_args.map (fun args => callStar p.f args)).length =
      p.all_args.length := by
    simp
  have hperm2 : order.Perm
      (List.range (p.all_args.map (fun args => callStar p.f args)).length) := by
    rwa [hlen]
  have hcomp := perm_completed hperm2
  have hsome : ∀ o ∈ order.filterMap
      (fun i => (p.all_args.map (fun args => callStar p.f args))[i]?),
      (okValue o).isSome = true := by
    intro o ho
    obtain ⟨a, ha, rfl⟩ := List.mem_map.mp (hcomp.mem_iff.mp ho)
    have hta := htup a ha
    cases a with
    | tup xs =>
      obtain ⟨v, hv⟩ := hok xs
      show (okValue (p.f xs)).isSome = true
      rw [hv]
      rfl
    | int m => simp [PyVal.isTuple] at hta
    | str s => simp [PyVal.isTuple] at hta
    | pynone => simp [PyVal.isTuple] at hta
  refine ⟨(order.filterMap
      (fun i => (p.all_args.map (fun args => callStar p.f args))[i]?)).filterMap
      okValue, rfl, ?_, ?_⟩
  · rw [length_filterMap_of_isSome hsome, hcomp.length_eq, hlen]
  · show (order.filterMap
        (fun i => (p.all_args.map (fun args => callStar p.f args))[i]?)).length =
      p.all_args.length
    rw [hcomp.length_eq, hlen]

/-- Witness for claim C3 at the two-entry registry with the always-succeeding
worker and completion order `[1, 0]`. -/
theorem run_success_counts_witness :
    ∃ l, (pTwo.run 2 none [1, 0]).results = some l ∧
      l.length = pTwo.all_args.length ∧
      (pTwo.run 2 none [1, 0]).progressEvents = pTwo.all_args.length :=
  run_success_counts pTwo 2 [1, 0] (by decide) (by decide)
    (fun args => ⟨PyVal.pynone, rfl⟩)

/-- Claim C8: with the worker `square` and the registry
`[(1,), (2,), (3,), (4,)]`, `run(workerCount = 2)` returns, for every
completion order, a list whose multiset of elements is exactly
`{1, 4, 9, 16}`, with 4 progress events. -/
theorem run_square_multiset (order : List Nat)
    (h : order.Perm (List.range 4)) :
    ∃ l, (regFour.run 2 none order).results = some l ∧
      l.Perm [PyVal.int 1, PyVal.int 4, PyVal.int 9, PyVal.int 16] ∧
      (regFour.run 2 none order).progressEvents = 4 := by
  have hperm2 : order.Perm
      (List.range
        (regFour.all_args.map (fun args => callStar regFour.f args)).length) := h
  have hcomp := perm_completed hperm2
  refine ⟨(order.filterMap
      (fun i =>
        (regFour.all_args.map (fun args => callStar regFour.f args))[i]?)).filterMap
      okValue, rfl, ?_, ?_⟩
  · exact hcomp.filterMap okValue
  · show (order.filterMap
        (fun i =>
          (regFour.all_args.map (fun args => callStar regFour.f args))[i]?)).length =
      4
    rw [hcomp.length_eq]
    rfl

/-- Witness for claim C8 at the completion order `[2, 0, 3, 1]`. -/
theorem run_square_multiset_witness :
    ∃ l, (regFour.run 2 none [2, 0, 3, 1]).results = some l ∧
      l.Perm [PyVal.int 1, PyVal.int 4, PyVal.int 9, PyVal.int 16] ∧
      (regFour.run 2 none [2, 0, 3, 1]).progressEvents = 4 :=
  run_square_multiset [2, 0, 3, 1] (by decide)
